import Mathlib

/-!
Verification of the `event-bus-sync-rs` crate (src/lib.rs): a synchronous,
type-keyed event bus.  The Rust code stores, for each `TypeId`, a
`Vec<Box<dyn Any>>` of type-erased handler boxes; dispatch looks the vector
up, downcasts every box back to `Box<dyn Handler<E>>` and invokes it in
order on the same `&mut E`.

Shallow embedding choices:
* Event types are an arbitrary type `Ty` of type identities with decidable
  equality (mirroring `TypeId`: distinct static types have distinct ids),
  and `Val : Ty → Type` gives the payload carried by each event type.
* A handler for event type `E` is its observable effect on the event, a
  function `Val E → Val E` (the Rust `Handler<E>::handle(&self, &mut E)`).
* A `Box<dyn Any>` holding a `Box<dyn Handler<E>>` is a dependent pair
  `⟨E, f⟩`; `downcast_ref` compares the stored tag with the requested one,
  returning `Option` exactly where the Rust downcast is fallible, and the
  `.unwrap()` panic is the `none` outcome of `call_event`.
* The `HashMap<TypeId, Vec<_>>` is an association list with unique keys;
  `cellsGet` embeds `HashMap::get` and `cellsEntryPush` embeds
  `entry(..).or_insert_with(Vec::default).push(..)`.
* `u32` arithmetic from the `counter` test is `Nat` reduced mod `2^32`
  where overflow could matter.
-/

namespace EventBusSync

/-- A type-erased handler box: the Rust `Box<dyn Any>` known (to the code
that inserted it) to contain a `Box<dyn Handler<E>>`.  The first component
is the true event-type identity of the boxed handler; the second is the
handler itself. -/
abbrev ErasedHandler (Ty : Type) (Val : Ty → Type) : Type :=
  Σ t : Ty, Val t → Val t

variable {Ty : Type} [DecidableEq Ty] {Val : Ty → Type}

/-- `EventBus`: `handler_cells: HashMap<TypeId, Vec<Box<dyn Any>>>`,
embedded as an association list from type identity to the ordered vector
of erased handler boxes. -/
structure EventBus (Ty : Type) (Val : Ty → Type) where
  handler_cells : List (Ty × List (ErasedHandler Ty Val))

/-- `EventBus::new`: the empty registry. -/
def EventBus.new (Ty : Type) (Val : Ty → Type) : EventBus Ty Val :=
  ⟨[]⟩

/-- `HashMap::get(&type_id)` on the cells. -/
def cellsGet (cells : List (Ty × List (ErasedHandler Ty Val))) (k : Ty) :
    Option (List (ErasedHandler Ty Val)) :=
  match cells with
  | [] => none
  | (k2, v) :: rest => if k = k2 then some v else cellsGet rest k

/-- `entry(k).or_insert_with(Vec::default).push(b)`: append `b` at the end
of the vector stored under `k`, creating a one-element vector if `k` is
absent. -/
def cellsEntryPush (cells : List (Ty × List (ErasedHandler Ty Val)))
    (k : Ty) (b : ErasedHandler Ty Val) :
    List (Ty × List (ErasedHandler Ty Val)) :=
  match cells with
  | [] => [(k, [b])]
  | (k2, v) :: rest =>
    if k = k2 then (k2, v ++ [b]) :: rest
    else (k2, v) :: cellsEntryPush rest k b

/-- `EventBus::register_handler::<E, F>`: box the handler, erase its type
and push it under `TypeId::of::<E>()`. -/
def EventBus.register_handler (bus : EventBus Ty Val) (E : Ty)
    (handler : Val E → Val E) : EventBus Ty Val :=
  ⟨cellsEntryPush bus.handler_cells E ⟨E, handler⟩⟩

/-- The `FnHandler` adapter: wraps a plain closure, with the phantom event
marker erased (it has no runtime content). -/
structure FnHandler (Ty : Type) (Val : Ty → Type) (E : Ty) where
  dyn_fn : Val E → Val E

/-- `Handler<E> for FnHandler<E, F>`: `handle` delegates to the wrapped
closure. -/
def FnHandler.handle {E : Ty} (h : FnHandler Ty Val E) (event : Val E) :
    Val E :=
  h.dyn_fn event

/-- `From<F> for FnHandler<E, F>` (`from` is reserved in Lean): pure
wrapping, no validation, no side effect. -/
def FnHandler.from_fn {E : Ty} (dyn_fn : Val E → Val E) :
    FnHandler Ty Val E :=
  ⟨dyn_fn⟩

/-- `EventBus::register_fn`: register the `FnHandler` adapter around the
closure. -/
def EventBus.register_fn (bus : EventBus Ty Val) (E : Ty)
    (f : Val E → Val E) : EventBus Ty Val :=
  bus.register_handler E (FnHandler.from_fn f).handle

/-- `(*handler).downcast_ref::<Box<dyn Handler<E>>>()`: succeeds exactly
when the box's true tag is `E`. -/
def downcast_ref (E : Ty) (b : ErasedHandler Ty Val) :
    Option (Val E → Val E) :=
  if h : b.1 = E then some (h ▸ b.2) else none

/-- The dispatch loop over one cell: downcast each box (`none` embeds the
`unwrap` panic) and apply it to the event, threading the mutated event
through. -/
def callHandlerList (E : Ty) (hs : List (ErasedHandler Ty Val))
    (event : Val E) : Option (Val E) :=
  match hs with
  | [] => some event
  | b :: rest =>
    match downcast_ref E b with
    | none => none
    | some handle => callHandlerList E rest (handle event)

/-- `EventBus::call_event::<E>`: look up `TypeId::of::<E>()`; absent key is
a silent no-op, otherwise run the handler vector in order.  `none` is the
`unwrap` panic on a failed downcast. -/
def EventBus.call_event (bus : EventBus Ty Val) (E : Ty) (event : Val E) :
    Option (Val E) :=
  match cellsGet bus.handler_cells E with
  | none => some event
  | some vec => callHandlerList E vec event

/-- `call_event` as a stateful method call: the Rust method takes `&self`,
so the embedding threads the registry through and returns it with the
dispatch result.  The method body only reads `self.handler_cells`, so the
post-state is the pre-state. -/
def EventBus.call_event_st (bus : EventBus Ty Val) (E : Ty)
    (event : Val E) : EventBus Ty Val × Option (Val E) :=
  (bus, bus.call_event E event)

/-- One registration call against the bus: either `register_handler` or
`register_fn`, for some event type and handler. -/
inductive Reg (Ty : Type) (Val : Ty → Type) where
  | handler (E : Ty) (f : Val E → Val E)
  | fn (E : Ty) (f : Val E → Val E)

/-- The event type a registration call is for. -/
def Reg.ty : Reg Ty Val → Ty
  | .handler E _ => E
  | .fn E _ => E

/-- Perform one registration call. -/
def applyReg (bus : EventBus Ty Val) (r : Reg Ty Val) : EventBus Ty Val :=
  match r with
  | .handler E f => bus.register_handler E f
  | .fn E f => bus.register_fn E f

/-- A bus reachable through the public API: start from `EventBus::new` and
perform the registration calls in order. -/
def buildBus (rs : List (Reg Ty Val)) : EventBus Ty Val :=
  rs.foldl applyReg (EventBus.new Ty Val)

/-- Register a whole list of handlers for the same event type, in order. -/
def registerAll (bus : EventBus Ty Val) (E : Ty)
    (fs : List (Val E → Val E)) : EventBus Ty Val :=
  fs.foldl (fun b f => b.register_handler E f) bus

/-- Wrapping `u32` arithmetic on `Nat`. -/
def U32MOD : Nat := 4294967296

/-- `u32` addition (wraps mod `2^32`). -/
def u32add (a b : Nat) : Nat := (a + b) % U32MOD

/-- `u32` multiplication (wraps mod `2^32`). -/
def u32mul (a b : Nat) : Nat := (a * b) % U32MOD

/-- `u32` subtraction (wraps mod `2^32`). -/
def u32sub (a b : Nat) : Nat := (a + (U32MOD - b % U32MOD)) % U32MOD

/-- `u32` division (truncating; never overflows). -/
def u32div (a b : Nat) : Nat := a / b

/-- The bus built by the `counter` test: event type `SomeEvent` has
identity `0`, its payload the `u32` field `some_data`, and the four
closures are registered via `register_fn` in source order. -/
def counterBus : EventBus Nat (fun _ => Nat) :=
  ((((EventBus.new Nat (fun _ => Nat)).register_fn 0
      (fun v => u32add v 2)).register_fn 0
      (fun v => u32mul v 4)).register_fn 0
      (fun v => u32sub v 2)).register_fn 0
      (fun v => u32div v 2)

/-! ### Base lemmas about the registry operations -/

/-- Lookup after an entry-push: the pushed key now maps to its old vector
(empty if absent) with the new box at the end; every other key is
untouched. -/
theorem cellsGet_entryPush (cells : List (Ty × List (ErasedHandler Ty Val)))
    (k : Ty) (b : ErasedHandler Ty Val) (q : Ty) :
    cellsGet (cellsEntryPush cells k b) q =
      if q = k then some ((cellsGet cells k).getD [] ++ [b])
      else cellsGet cells q := by
  induction cells with
  | nil =>
    by_cases hq : q = k
    · subst hq
      simp [cellsEntryPush, cellsGet]
    · simp [cellsEntryPush, cellsGet, hq]
  | cons hd tl ih =>
    obtain ⟨k2, v⟩ := hd
    by_cases hk : k = k2
    · subst hk
      by_cases hq : q = k
      · subst hq
        simp [cellsEntryPush, cellsGet]
      · simp [cellsEntryPush, cellsGet, hq]
    · by_cases hq : q = k2
      · subst hq
        have hqk : ¬ q = k := fun h => hk h.symm
        simp [cellsEntryPush, cellsGet, hk, hqk]
      · simp [cellsEntryPush, cellsGet, hk, hq, ih]

/-- Lookup in the empty registry always misses. -/
theorem cellsGet_new (E : Ty) :
    cellsGet (EventBus.new Ty Val).handler_cells E = none := rfl

/-- Downcasting a box whose true tag is the requested type succeeds and
returns the stored handler. -/
theorem downcast_ref_self (E : Ty) (f : Val E → Val E) :
    downcast_ref E (⟨E, f⟩ : ErasedHandler Ty Val) = some f :=
  dif_pos rfl

/-- Running the dispatch loop over boxes all tagged with the dispatched
type applies the stored handlers left to right, each one to the previous
one's output. -/
theorem callHandlerList_map (E : Ty) (fs : List (Val E → Val E))
    (e : Val E) :
    callHandlerList E (fs.map fun f => (⟨E, f⟩ : ErasedHandler Ty Val)) e =
      some (fs.foldl (fun a f => f a) e) := by
  induction fs generalizing e with
  | nil => rfl
  | cons f rest ih =>
    simp only [List.map_cons, callHandlerList, downcast_ref_self,
      List.foldl_cons]
    exact ih (f e)

/-- `register_fn` is definitionally `register_handler` of the unwrapped
closure: the adapter's `handle` is the closure itself. -/
theorem register_fn_eq_register_handler (bus : EventBus Ty Val) (E : Ty)
    (f : Val E → Val E) :
    bus.register_fn E f = bus.register_handler E f := rfl

/-- Effect of one `register_handler` call on lookups: the registered
type's vector gains the box at the end, all other vectors are unchanged. -/
theorem cellsGet_register_handler (bus : EventBus Ty Val) (E : Ty)
    (f : Val E → Val E) (q : Ty) :
    cellsGet (bus.register_handler E f).handler_cells q =
      if q = E then
        some ((cellsGet bus.handler_cells E).getD [] ++
          [(⟨E, f⟩ : ErasedHandler Ty Val)])
      else cellsGet bus.handler_cells q :=
  cellsGet_entryPush bus.handler_cells E ⟨E, f⟩ q

/-- Effect of `registerAll` (non-empty list) on the lookup of the
registered type: the new boxes sit after whatever was there, in
registration order. -/
theorem cellsGet_registerAll_cons (bus : EventBus Ty Val) (E : Ty)
    (f : Val E → Val E) (fs : List (Val E → Val E)) :
    cellsGet (registerAll bus E (f :: fs)).handler_cells E =
      some ((cellsGet bus.handler_cells E).getD [] ++
        (f :: fs).map fun g => (⟨E, g⟩ : ErasedHandler Ty Val)) := by
  induction fs generalizing bus f with
  | nil =>
    simpa using cellsGet_register_handler bus E f E
  | cons g gs ih =>
    have h1 : registerAll bus E (f :: g :: gs) =
        registerAll (bus.register_handler E f) E (g :: gs) := rfl
    rw [h1, ih (bus.register_handler E f) g, cellsGet_register_handler]
    simp

/-- Dispatch when the type's cell is absent: reduce `call_event` to its
no-op branch. -/
theorem call_event_eq_of_none {bus : EventBus Ty Val} {E : Ty}
    (e : Val E) (h : cellsGet bus.handler_cells E = none) :
    bus.call_event E e = some e := by
  unfold EventBus.call_event
  rw [h]

/-- Dispatch when the type's cell is present: reduce `call_event` to the
loop over the stored vector. -/
theorem call_event_eq_of_some {bus : EventBus Ty Val} {E : Ty}
    {vec : List (ErasedHandler Ty Val)} (e : Val E)
    (h : cellsGet bus.handler_cells E = some vec) :
    bus.call_event E e = callHandlerList E vec e := by
  unfold EventBus.call_event
  rw [h]

/-- Dispatching after registering a non-empty run of handlers for a
previously handler-free type folds those handlers over the event in
registration order. -/
theorem call_event_registerAll_of_none (bus : EventBus Ty Val) (E : Ty)
    (fs : List (Val E → Val E)) (e : Val E)
    (h : cellsGet bus.handler_cells E = none) :
    (registerAll bus E fs).call_event E e =
      some (fs.foldl (fun a f => f a) e) := by
  cases fs with
  | nil => exact call_event_eq_of_none e h
  | cons f rest =>
    rw [call_event_eq_of_some e (cellsGet_registerAll_cons bus E f rest)]
    rw [h]
    simpa using callHandlerList_map E (f :: rest) e

/-- The registry invariant maintained by the insertion path: every box in
the cell keyed `k` is tagged with `k` itself, i.e. it really holds a
handler for exactly that event type. -/
def WFBus (bus : EventBus Ty Val) : Prop :=
  ∀ k hs, cellsGet bus.handler_cells k = some hs → ∀ b ∈ hs, b.1 = k

/-- The empty registry satisfies the invariant. -/
theorem WFBus_new : WFBus (EventBus.new Ty Val) := by
  intro k hs h
  simp [cellsGet_new] at h

/-- `register_handler` preserves the invariant: it only ever files a box
tagged `E` under the key `id(E)`. -/
theorem WFBus_register_handler {bus : EventBus Ty Val} (hwf : WFBus bus)
    (E : Ty) (f : Val E → Val E) :
    WFBus (bus.register_handler E f) := by
  intro k hs hget b hb
  rw [cellsGet_register_handler] at hget
  by_cases hk : k = E
  · subst hk
    rw [if_pos rfl] at hget
    obtain rfl : (cellsGet bus.handler_cells k).getD [] ++
        [(⟨k, f⟩ : ErasedHandler Ty Val)] = hs := Option.some.inj hget
    rcases List.mem_append.mp hb with hb1 | hb2
    · cases hc : cellsGet bus.handler_cells k with
      | none => rw [hc] at hb1; cases hb1
      | some old =>
        rw [hc] at hb1
        exact hwf k old hc b hb1
    · rw [List.mem_singleton] at hb2
      subst hb2
      rfl
  · rw [if_neg hk] at hget
    exact hwf k hs hget b hb

/-- Any single API registration call preserves the invariant. -/
theorem WFBus_applyReg {bus : EventBus Ty Val} (hwf : WFBus bus)
    (r : Reg Ty Val) : WFBus (applyReg bus r) := by
  cases r with
  | handler E f => exact WFBus_register_handler hwf E f
  | fn E f => exact WFBus_register_handler hwf E (FnHandler.from_fn f).handle

/-- Every registry reachable through `new` / `register_handler` /
`register_fn` satisfies the invariant. -/
theorem WFBus_buildBus (rs : List (Reg Ty Val)) : WFBus (buildBus rs) := by
  have gen : ∀ (l : List (Reg Ty Val)) (bus : EventBus Ty Val),
      WFBus bus → WFBus (l.foldl applyReg bus) := by
    intro l
    induction l with
    | nil => intro bus h; exact h
    | cons r rest ih =>
      intro bus h
      exact ih (applyReg bus r) (WFBus_applyReg h r)
  exact gen rs (EventBus.new Ty Val) WFBus_new

/-- If every box in the list is tagged with the dispatched type, the loop
never hits a failing downcast. -/
theorem callHandlerList_isSome (E : Ty)
    (hs : List (ErasedHandler Ty Val)) (e : Val E)
    (h : ∀ b ∈ hs, b.1 = E) :
    ∃ v, callHandlerList E hs e = some v := by
  induction hs generalizing e with
  | nil => exact ⟨e, rfl⟩
  | cons b rest ih =>
    obtain ⟨t, g⟩ := b
    obtain rfl : t = E := h ⟨t, g⟩ (List.mem_cons_self _ _)
    rw [callHandlerList, downcast_ref_self]
    exact ih (g e) (fun b hb => h b (List.mem_cons_of_mem _ hb))

/-- Registering for one type leaves every other type's cell untouched
(lookup-level frame property). -/
theorem cellsGet_register_handler_ne {bus : EventBus Ty Val} {E D : Ty}
    (f : Val E → Val E) (hne : D ≠ E) :
    cellsGet (bus.register_handler E f).handler_cells D =
      cellsGet bus.handler_cells D := by
  rw [cellsGet_register_handler, if_neg hne]

/-- A bus built from registrations none of which targets `E` has no cell
for `E`. -/
theorem cellsGet_buildBus_of_not_mem (rs : List (Reg Ty Val)) (E : Ty)
    (h : ∀ r ∈ rs, r.ty ≠ E) :
    cellsGet (buildBus rs).handler_cells E = none := by
  have gen : ∀ (l : List (Reg Ty Val)) (bus : EventBus Ty Val),
      cellsGet bus.handler_cells E = none → (∀ r ∈ l, r.ty ≠ E) →
      cellsGet (l.foldl applyReg bus).handler_cells E = none := by
    intro l
    induction l with
    | nil => intro bus hb _; exact hb
    | cons r rest ih =>
      intro bus hb hl
      have hr : Reg.ty r ≠ E := hl r (List.mem_cons_self _ _)
      have step : cellsGet (applyReg bus r).handler_cells E = none := by
        cases r with
        | handler F f =>
          rw [applyReg]
          rw [cellsGet_register_handler_ne f (fun hEF => hr hEF.symm)]
          exact hb
        | fn F f =>
          have hr2 : F ≠ E := hr
          rw [applyReg, EventBus.register_fn]
          rw [cellsGet_register_handler_ne (FnHandler.from_fn f).handle
            (fun hEF => hr2 hEF.symm)]
          exact hb
      exact ih (applyReg bus r) step
        (fun q hq => hl q (List.mem_cons_of_mem _ hq))
  exact gen rs (EventBus.new Ty Val) (cellsGet_new E) h

/-! ### Claim theorems -/

/-- C1: for handlers `H1..Hn` registered for event type `E` in that order
(into a bus with no prior `E` handlers), `call_event` on a mutable event of
type `E` invokes them in exactly registration order on the same threaded
event value, so each handler observes the cumulative mutations of all
earlier ones: the result is the left fold of the handlers over the event. -/
theorem c1_ordered_pipeline (bus : EventBus Ty Val) (E : Ty)
    (fs : List (Val E → Val E)) (e : Val E)
    (h : cellsGet bus.handler_cells E = none) :
    (registerAll bus E fs).call_event E e =
      some (fs.foldl (fun a f => f a) e) :=
  call_event_registerAll_of_none bus E fs e h

/-- Witness for C1: registering `+1` then `*2` on a fresh bus and
dispatching `3` yields `some 8` (pipeline order), not `some 7`. -/
theorem c1_ordered_pipeline_witness :
    cellsGet (EventBus.new Nat (fun _ => Nat)).handler_cells 0 = none ∧
    (registerAll (EventBus.new Nat (fun _ => Nat)) 0
      [fun v => v + 1, fun v => v * 2]).call_event 0 3 = some 8 :=
  ⟨rfl, c1_ordered_pipeline (EventBus.new Nat (fun _ => Nat)) 0
    [fun v => v + 1, fun v => v * 2] 3 rfl⟩

/-- C2: the `counter` test scenario: four handlers `+2`, `*4`, `-2`, `/2`
(in `u32` arithmetic) registered in order for one event type; dispatching
an event with value `0` ends with value `3` (0→2→8→6→3). -/
theorem c2_counter_scenario : counterBus.call_event 0 0 = some 3 := rfl

/-- C3: dispatching an event of a type for which no handler was ever
registered (over any sequence of API registration calls, none targeting
that type) returns normally with the event completely unchanged. -/
theorem c3_no_handler_noop (rs : List (Reg Ty Val)) (E : Ty) (e : Val E)
    (h : ∀ r ∈ rs, r.ty ≠ E) :
    (buildBus rs).call_event E e = some e :=
  call_event_eq_of_none e (cellsGet_buildBus_of_not_mem rs E h)

/-- Witness for C3: a bus holding only a handler for type `1` dispatches a
type-`0` event as a no-op. -/
theorem c3_no_handler_noop_witness :
    (∀ r ∈ ([Reg.fn 1 (fun v => v + 5)] : List (Reg Nat (fun _ => Nat))),
      Reg.ty r ≠ 0) ∧
    (buildBus
      ([Reg.fn 1 (fun v => v + 5)] : List (Reg Nat (fun _ => Nat)))
      ).call_event 0 7 = some 7 := by
  have hmem : ∀ r ∈ ([Reg.fn 1 (fun v => v + 5)] :
      List (Reg Nat (fun _ => Nat))), Reg.ty r ≠ 0 := by
    intro r hr
    rw [List.mem_singleton] at hr
    subst hr
    decide
  exact ⟨hmem, c3_no_handler_noop _ 0 7 hmem⟩

/-- C4: type isolation: a handler registered for type `A` is never invoked
when dispatching an event of a distinct type `B` — dispatch of the `B`
event on the extended bus is exactly dispatch on the bus without the `A`
handler. -/
theorem c4_type_isolation (bus : EventBus Ty Val) (A B : Ty)
    (f : Val A → Val A) (e : Val B) (hne : A ≠ B) :
    (bus.register_handler A f).call_event B e = bus.call_event B e := by
  unfold EventBus.call_event
  rw [cellsGet_register_handler_ne f (fun h2 => hne h2.symm)]

/-- Witness for C4: a handler for type `1` does not fire when a type-`0`
event is dispatched. -/
theorem c4_type_isolation_witness :
    (1 : Nat) ≠ 0 ∧
    ((EventBus.new Nat (fun _ => Nat)).register_handler 1
      (fun v => v + 9)).call_event 0 5 =
      (EventBus.new Nat (fun _ => Nat)).call_event 0 5 :=
  ⟨by decide, c4_type_isolation (EventBus.new Nat (fun _ => Nat)) 1 0
    (fun v => v + 9) 5 (by decide)⟩

/-- C5: registering the same handler twice for the same type stores two
independent entries, and one dispatch runs it twice, the second run
observing the first's mutation: the result is `f (f e)`. -/
theorem c5_multiplicity (bus : EventBus Ty Val) (E : Ty)
    (f : Val E → Val E) (e : Val E)
    (h : cellsGet bus.handler_cells E = none) :
    ((bus.register_handler E f).register_handler E f).call_event E e =
      some (f (f e)) := by
  have hreg : (bus.register_handler E f).register_handler E f =
      registerAll bus E [f, f] := rfl
  rw [hreg]
  exact call_event_registerAll_of_none bus E [f, f] e h

/-- Witness for C5: registering `v * 2 + 1` twice and dispatching `0`
gives `some 3` — the compounded `f (f 0)`, not `f 0`. -/
theorem c5_multiplicity_witness :
    cellsGet (EventBus.new Nat (fun _ => Nat)).handler_cells 0 = none ∧
    (((EventBus.new Nat (fun _ => Nat)).register_handler 0
      (fun v => v * 2 + 1)).register_handler 0
      (fun v => v * 2 + 1)).call_event 0 0 = some 3 :=
  ⟨rfl, c5_multiplicity (EventBus.new Nat (fun _ => Nat)) 0
    (fun v => v * 2 + 1) 0 rfl⟩

/-- C6: `register_handler` (and `register_fn`, which delegates to it)
appends exactly one new box at the end of the sequence keyed by `id(E)`,
creating that sequence (from the empty one, via `getD []`) when `E` was
never registered before; as a total function of the registry it has no
failure outcome. -/
theorem c6_register_appends (bus : EventBus Ty Val) (E : Ty)
    (f : Val E → Val E) :
    cellsGet (bus.register_handler E f).handler_cells E =
      some ((cellsGet bus.handler_cells E).getD [] ++
        [(⟨E, f⟩ : ErasedHandler Ty Val)]) ∧
    cellsGet (bus.register_fn E f).handler_cells E =
      some ((cellsGet bus.handler_cells E).getD [] ++
        [(⟨E, f⟩ : ErasedHandler Ty Val)]) := by
  constructor
  · simpa using cellsGet_register_handler bus E f E
  · rw [register_fn_eq_register_handler]
    simpa using cellsGet_register_handler bus E f E

/-- C7: `call_event` never mutates the registry: the post-state of the
stateful dispatch call is the pre-state (key set and ordered cell contents
included), so repeated dispatch of the same event runs the same handlers
and produces the same result. -/
theorem c7_dispatch_registry_frame (bus : EventBus Ty Val) (E : Ty)
    (e : Val E) :
    (bus.call_event_st E e).1 = bus ∧
    (bus.call_event_st E e).1.handler_cells = bus.handler_cells ∧
    (bus.call_event_st E e).1.call_event E e = bus.call_event E e :=
  ⟨rfl, rfl, rfl⟩

/-- C8: `register_fn f` is observationally equivalent to
`register_handler` of the `FnHandler` adapter around `f`: the adapter's
`handle` is exactly `f`, registration produces the same bus, and any
subsequent dispatch mutates the event exactly as `f` does. -/
theorem c8_register_fn_refines (bus : EventBus Ty Val) (E : Ty)
    (f : Val E → Val E) (e : Val E) :
    (FnHandler.from_fn f : FnHandler Ty Val E).handle = f ∧
    bus.register_fn E f =
      bus.register_handler E (FnHandler.from_fn f).handle ∧
    (bus.register_fn E f).call_event E e =
      (bus.register_handler E f).call_event E e :=
  ⟨rfl, rfl, rfl⟩

/-- C9: on every registry reachable through `new`, `register_handler` and
`register_fn`, every box stored under key `id(E)` is a boxed handler for
exactly `E` (the `WFBus` invariant), so the fallible downcast inside
`call_event` never fails: the `unwrap` panic (the `none` outcome of the
embedding) is unreachable, for every event type and event value. -/
theorem c9_downcast_unreachable (rs : List (Reg Ty Val)) :
    WFBus (buildBus rs) ∧
    ∀ (E : Ty) (e : Val E),
      ((buildBus rs).call_event E e).isSome = true := by
  refine ⟨WFBus_buildBus rs, ?_⟩
  intro E e
  cases hget : cellsGet (buildBus rs).handler_cells E with
  | none =>
    rw [call_event_eq_of_none e hget]
    rfl
  | some vec =>
    rw [call_event_eq_of_some e hget]
    obtain ⟨v, hv⟩ := callHandlerList_isSome E vec e
      (WFBus_buildBus rs E vec hget)
    rw [hv]
    rfl

/-- C10: registering a handler for `E` (by either API) leaves the cell of
every other type identity `D`, including its absence, unchanged. -/
theorem c10_register_frame (bus : EventBus Ty Val) (E D : Ty)
    (f : Val E → Val E) (hne : D ≠ E) :
    cellsGet (bus.register_handler E f).handler_cells D =
      cellsGet bus.handler_cells D ∧
    cellsGet (bus.register_fn E f).handler_cells D =
      cellsGet bus.handler_cells D := by
  refine ⟨cellsGet_register_handler_ne f hne, ?_⟩
  rw [register_fn_eq_register_handler]
  exact cellsGet_register_handler_ne f hne

/-- Witness for C10: registering for type `0` leaves type `1` lookups
unchanged, by either registration API. -/
theorem c10_register_frame_witness :
    (1 : Nat) ≠ 0 ∧
    (cellsGet ((EventBus.new Nat (fun _ => Nat)).register_handler 0
        (fun v => v + 1)).handler_cells 1 =
      cellsGet (EventBus.new Nat (fun _ => Nat)).handler_cells 1 ∧
    cellsGet ((EventBus.new Nat (fun _ => Nat)).register_fn 0
        (fun v => v + 1)).handler_cells 1 =
      cellsGet (EventBus.new Nat (fun _ => Nat)).handler_cells 1) :=
  ⟨by decide, c10_register_frame (EventBus.new Nat (fun _ => Nat)) 0 1
    (fun v => v + 1) (by decide)⟩

end EventBusSync
